import Mathlib

/-!
Verification development for the docker executor of `gitlab-ci-multi-runner`
(`executors/docker/executor_docker.go`) and the PowerShell shell
(`shells/powershell.go`).

The executor is embedded shallowly: every function under scrutiny is
translated into a pure Lean function.  Calls into the docker daemon client
(`ContainerCreate`, `ContainerInspect`, `ImagePullBlocking`, ...) are
modelled by explicit environment records holding the outcome each call
would return, and the side effects a function performs (container
creations, removals, client connection) are returned as an explicit action
trace.  Go standard-library functions used by the executor (`path.Clean`,
`path.Dir`, `strings.SplitN`, ...) are modelled by Lean functions on
character lists that follow the documented Go semantics.
-/

set_option autoImplicit false

namespace GitlabRunner

/-! ## Models of Go standard library string and path functions -/

/-- Model of Go `strings.ContainsAny(s, chars)`: true iff some character of
`chars` occurs in `s`. -/
def goContainsAny (s : String) (chars : List Char) : Bool :=
  s.data.any (fun c => chars.contains c)

/-- Helper for `goContains`: does `pat` occur as a contiguous sublist? -/
def containsSubAux (pat : List Char) : List Char → Bool
  | [] => pat.isEmpty
  | c :: rest => pat.isPrefixOf (c :: rest) || containsSubAux pat rest

/-- Model of Go `strings.Contains(s, sub)`. -/
def goContains (s sub : String) : Bool :=
  containsSubAux sub.data s.data

/-- Model of Go `strings.Replace(s, "/", repl, -1)` (and the `"-"` variant):
replace every `'/'` by the string `repl`.  The source only ever replaces the
single-character pattern `"/"`. -/
def replaceSlashes (s repl : String) : String :=
  String.mk (s.data.foldr (fun c acc => if c = '/' then repl.data ++ acc else c :: acc) [])

/-- Split a character list on a separator character (model of Go
`strings.Split`, which never returns an empty list). -/
def splitOnChar (sep : Char) (l : List Char) : List (List Char) :=
  l.foldr (fun c acc =>
    if c = sep then [] :: acc
    else
      match acc with
      | [] => [[c]]
      | h :: t => (c :: h) :: t) [[]]

/-- Model of Go `strings.SplitN(s, ":", 2)`. -/
def splitN2Colon (s : String) : List String :=
  match s.data.span (fun c => c ≠ ':') with
  | (before, []) => [String.mk before]
  | (before, _ :: after) => [String.mk before, String.mk after]

/-- Model of Go `path.IsAbs`: nonempty and starting with `'/'`. -/
def goIsAbs (p : String) : Bool :=
  p.data.head? = some '/'

/-- Join the path components back together with `'/'` separators. -/
def intercalateSlash : List (List Char) → List Char
  | [] => []
  | [c] => c
  | c :: rest => c ++ '/' :: intercalateSlash rest

/-- Stack-based processing of `".."` components, as performed by the lexical
cleaning of Go `path.Clean`: a `".."` pops a preceding non-`".."` component,
is dropped at the root, and is kept otherwise. -/
def cleanComps (rooted : Bool) : List (List Char) → List (List Char) → List (List Char)
  | stack, [] => stack.reverse
  | stack, c :: cs =>
    if c = ['.', '.'] then
      match stack with
      | [] =>
        if rooted then cleanComps rooted [] cs
        else cleanComps rooted [['.', '.']] cs
      | top :: rest =>
        if top = ['.', '.'] then cleanComps rooted (c :: stack) cs
        else cleanComps rooted rest cs
    else cleanComps rooted (c :: stack) cs

/-- Model of Go `path.Clean`: lexically simplify a slash-separated path
(drop empty and `"."` components, resolve `".."`, keep rootedness; empty
input cleans to `"."`). -/
def pathClean (p : String) : String :=
  if p.data = [] then "."
  else
    let rooted : Bool := p.data.head? = some '/'
    let comps := (splitOnChar '/' p.data).filter (fun c => !c.isEmpty && c ≠ ['.'])
    let body := intercalateSlash (cleanComps rooted [] comps)
    if rooted then String.mk ('/' :: body)
    else if body = [] then "."
    else String.mk body

/-- Model of Go `path.Dir`: everything up to (and including) the final slash,
cleaned; a path without slash has directory `"."`. -/
def pathDir (p : String) : String :=
  let rev := p.data.reverse
  let fileRev := rev.takeWhile (fun c => c ≠ '/')
  pathClean (String.mk ((rev.drop fileRev.length).reverse))

/-- Model of Go `path.Join` restricted to two elements: empty elements are
skipped and the result is cleaned. -/
def pathJoin (a b : String) : String :=
  if a = "" ∧ b = "" then ""
  else if a = "" then pathClean b
  else if b = "" then pathClean a
  else pathClean (a ++ "/" ++ b)

/-! ## Errors and basic data of the executor -/

/-- An error value returned by a docker client call.  `isNotFound` models
`docker_helpers.IsErrNotFound(err)` (a property of the error's dynamic type,
independent of its message). -/
structure GoError where
  msg : String
  isNotFound : Bool := false
deriving DecidableEq, Repr

/-- Errors produced by the executor: a client error passed through, a client
error wrapped in `common.BuildError`, the `BuildError` built from a non-zero
exit code, or an error built by `errors.New` / `fmt.Errorf`. -/
inductive RunnerError where
  | goErr (e : GoError)
  | buildErr (e : GoError)
  | buildErrExit (code : Int)
  | errMsg (msg : String)
deriving DecidableEq, Repr

/-- The result of one `ContainerInspect` poll inside `waitForContainer`:
either the call failed with an error, or it reported the container state
(`State.Running`, `State.ExitCode`). -/
inductive InspectPoll where
  | fail (e : GoError)
  | state (running : Bool) (exitCode : Int)
deriving DecidableEq, Repr

/-- The mutable registries of the executor (`executor` struct fields).
`builds` and `services` hold the container IDs of the recorded
`types.Container` values. -/
structure ExecState where
  failures : List String := []
  builds : List String := []
  services : List String := []
  caches : List String := []
  binds : List String := []
  volumesFrom : List String := []
  links : List String := []
deriving DecidableEq, Repr

/-- Daemon-side effects performed by the executor, recorded as a trace.
`containerCreate` records the requested container name together with the
`Config.Volumes` keys of the create request (only cache containers declare
volumes). -/
inductive Act where
  | removeContainer (id : String)
  | containerCreate (name : String) (configVolumes : List String)
  | containerStart (id : String)
  | pull (ref : String)
  | connectClient
deriving DecidableEq, Repr

/-! ## waitForContainer -/

/-- The polling loop of `waitForContainer`, driven by the list of successive
`ContainerInspect` outcomes.  Result `none` means the supplied poll trace was
exhausted while the loop would keep polling (the Go loop sleeps one second
between polls and continues); `some r` means the function returns, with
`r = none` for success and `r = some e` for an error. -/
def waitForContainerAux (retries : Nat) : List InspectPoll → Option (Option RunnerError)
  | [] => none
  | .fail e :: rest =>
    if e.isNotFound then some (some (.goErr e))
    else if retries > 3 then some (some (.goErr e))
    else waitForContainerAux (retries + 1) rest
  | .state running exitCode :: rest =>
    if running then waitForContainerAux 0 rest
    else if exitCode ≠ 0 then some (some (.buildErrExit exitCode))
    else some none

/-- Function `waitForContainer(id)` over a trace of inspect outcomes; the retry
counter starts at zero. -/
def waitForContainer (polls : List InspectPoll) : Option (Option RunnerError) :=
  waitForContainerAux 0 polls

/-! ## Image acquisition: pullDockerImage / getDockerImage -/

/-- Result of `ImageInspectWithRaw` (only the `ID` field is consumed by the
executor's control flow). -/
structure ImageInspect where
  id : String
deriving DecidableEq, Repr

/-- The pull policies of `common.PullPolicy`. -/
inductive PullPolicy where
  | always
  | ifNotPresent
  | never
deriving DecidableEq, Repr

/-- Outcomes of the client calls made by `getDockerImage` /
`pullDockerImage` for one image: the result of `PullPolicy.Get()`, the local
`ImageInspectWithRaw` (Go returns a value *and* an error; the value is the
zero value when the error is set), the error of `ImagePullBlocking`, and the
`ImageInspectWithRaw` performed after a successful pull. -/
structure ImageEnv where
  pullPolicyGet : Except GoError PullPolicy
  inspect : ImageInspect × Option GoError
  pullErr : Option GoError
  postPullInspect : ImageInspect × Option GoError

/-- Function `pullDockerImage(imageName, ac)`: append `":latest"` when the name
contains neither `':'` nor `'@'`, issue the pull (recorded in the action
trace), wrap a "not found" pull error in `common.BuildError`, and on success
re-inspect, returning the inspected image together with the inspect error. -/
def pullDockerImage (env : ImageEnv) (imageName : String) :
    (Option ImageInspect × Option RunnerError) × List Act :=
  let ref := if !goContainsAny imageName [':', '@'] then imageName ++ ":latest" else imageName
  match env.pullErr with
  | some e =>
    if goContains e.msg "not found" then ((none, some (.buildErr e)), [.pull ref])
    else ((none, some (.goErr e)), [.pull ref])
  | none =>
    ((some env.postPullInspect.1, env.postPullInspect.2.map .goErr), [.pull ref])

/-- Function `getDockerImage(imageName)`: resolve the pull policy, inspect locally;
under policy `never` return the inspect result verbatim; skip the pull when
the name is an image ID or when policy `if-not-present` finds a local image;
otherwise pull. -/
def getDockerImage (env : ImageEnv) (imageName : String) :
    (Option ImageInspect × Option RunnerError) × List Act :=
  match env.pullPolicyGet with
  | .error e => ((none, some (.goErr e)), [])
  | .ok pullPolicy =>
    if pullPolicy = .never then ((some env.inspect.1, env.inspect.2.map .goErr), [])
    else if env.inspect.2 = none ∧ env.inspect.1.id = imageName then
      ((some env.inspect.1, none), [])
    else if env.inspect.2 = none ∧ pullPolicy = .ifNotPresent then
      ((some env.inspect.1, env.inspect.2.map .goErr), [])
    else
      match pullDockerImage env imageName with
      | ((_, some e), acts) => ((none, some e), acts)
      | ((newImage, none), acts) => ((newImage, none), acts)

/-- Boolean equality on characters is symmetric. -/
theorem char_beq_comm (a b : Char) : (a == b) = (b == a) := by
  by_cases h : a = b
  · subst h; rfl
  · rw [beq_eq_false_iff_ne.mpr h, beq_eq_false_iff_ne.mpr (Ne.symm h)]

/-- Lemma: `goContainsAny` over the two characters `':'`, `'@'` is the disjunction
of the individual `List.contains` tests. -/
theorem goContainsAny_colon_at (s : String) :
    goContainsAny s [':', '@'] = (s.data.contains ':' || s.data.contains '@') := by
  unfold goContainsAny
  induction s.data with
  | nil => rfl
  | cons c rest ih =>
    simp only [List.any_cons, List.contains_cons, List.contains_nil, Bool.or_false] at ih ⊢
    rw [ih, char_beq_comm ':' c, char_beq_comm '@' c]
    cases (c == ':') <;> cases (c == '@') <;>
      cases rest.contains ':' <;> cases rest.contains '@' <;> rfl

/-- The action trace of `pullDockerImage` is exactly one pull of the
reference obtained by appending `":latest"` iff the name contains neither
`':'` nor `'@'`. -/
theorem pullDockerImage_acts (env : ImageEnv) (imageName : String) :
    (pullDockerImage env imageName).2 =
      [.pull (if imageName.data.contains ':' || imageName.data.contains '@'
              then imageName else imageName ++ ":latest")] := by
  unfold pullDockerImage
  rw [← goContainsAny_colon_at]
  cases henv : env.pullErr with
  | none => cases hg : goContainsAny imageName [':', '@'] <;> simp [hg]
  | some e =>
    cases hg : goContainsAny imageName [':', '@'] <;> simp [hg] <;> split <;> rfl

/-- Lemma: `getDockerImage` either performs no actions or exactly the actions of
`pullDockerImage` on the unchanged image name. -/
theorem getDockerImage_acts (env : ImageEnv) (imageName : String) :
    (getDockerImage env imageName).2 = [] ∨
      (getDockerImage env imageName).2 = (pullDockerImage env imageName).2 := by
  unfold getDockerImage
  cases hpg : env.pullPolicyGet with
  | error e => exact Or.inl rfl
  | ok policy =>
    rcases hp : pullDockerImage env imageName with ⟨⟨oi, oe⟩, acts⟩
    by_cases h1 : policy = .never
    · subst h1; exact Or.inl rfl
    · by_cases h2 : env.inspect.2 = none ∧ env.inspect.1.id = imageName
      · left; simp [h1, h2]
      · by_cases h3 : env.inspect.2 = none ∧ policy = .ifNotPresent
        · left; simp [h1, h2, h3]
        · right; cases oe <;> simp [h1, h2, h3, hp]

/-- Claim C4: with pull policy `never`, `getDockerImage` issues no pull for
any image name and any local-inspect outcome, returning the local inspect
result verbatim, error and all. -/
theorem claim_C4_pull_policy_never (env : ImageEnv) (imageName : String)
    (h : env.pullPolicyGet = .ok .never) :
    getDockerImage env imageName =
      ((some env.inspect.1, env.inspect.2.map RunnerError.goErr), []) := by
  unfold getDockerImage
  rw [h]
  rfl

/-- Witness for C4 at a concrete environment whose local inspect failed:
the inspect error is returned unchanged and nothing is pulled. -/
theorem claim_C4_pull_policy_never_witness :
    getDockerImage ⟨.ok .never, (⟨""⟩, some ⟨"no such image", false⟩), none, (⟨"x"⟩, none)⟩
        "alpine" =
      ((some ⟨""⟩, some (.goErr ⟨"no such image", false⟩)), []) :=
  claim_C4_pull_policy_never
    ⟨.ok .never, (⟨""⟩, some ⟨"no such image", false⟩), none, (⟨"x"⟩, none)⟩ "alpine" rfl

/-- Claim C5: every pull issued by `getDockerImage` uses the image name with
`":latest"` appended iff the name contains neither `':'` nor `'@'`, and the
exact unchanged reference otherwise. -/
theorem claim_C5_pull_ref (env : ImageEnv) (imageName : String) (a : Act)
    (h : a ∈ (getDockerImage env imageName).2) :
    a = .pull (if imageName.data.contains ':' || imageName.data.contains '@'
               then imageName else imageName ++ ":latest") := by
  rcases getDockerImage_acts env imageName with hacts | hacts
  · rw [hacts] at h
    exact absurd h (List.not_mem_nil a)
  · rw [hacts, pullDockerImage_acts] at h
    exact List.mem_singleton.mp h

/-- Witness for C5: a pull under policy `always` for the bare name
`"alpine"` is issued with `":latest"` appended. -/
theorem claim_C5_pull_ref_witness :
    Act.pull "alpine:latest" =
      .pull (if "alpine".data.contains ':' || "alpine".data.contains '@'
             then "alpine" else "alpine" ++ ":latest") :=
  claim_C5_pull_ref
    ⟨.ok .always, (⟨""⟩, some ⟨"no such image", false⟩), none, (⟨"x"⟩, none)⟩
    "alpine" (.pull "alpine:latest") (by decide)

/-! ## Volume planning: cache containers and the project-root volume -/

/-- The slice of `common.RunnerSettings.Docker` consumed by the volume
planner and image-name resolution. -/
structure DockerCfg where
  disableCache : Bool := false
  cacheDir : String := ""
  volumes : List String := []
  image : String := ""
  allowedImages : List String := []
  services : List String := []
  allowedServices : List String := []
deriving Repr

/-- Function `getAbsoluteContainerPath(dir)`: keep absolute paths, otherwise join
under the full project directory. -/
def getAbsoluteContainerPath (fullProjectDir dir : String) : String :=
  if goIsAbs dir then dir else pathJoin fullProjectDir dir

/-- Outcomes of the client calls made by `createCacheVolume`: the result of
`getPrebuiltImage`, the `(resp.ID, err)` pair of `ContainerCreate` (Go can
return a non-empty ID together with an error), the error of
`ContainerStart`, and the result of `waitForContainer`. -/
structure CreateCacheEnv where
  prebuiltImage : Except GoError ImageInspect
  createResp : String × Option GoError
  startErr : Option GoError
  waitErr : Option RunnerError

/-- Function `createCacheVolume(containerName, containerPath)`: obtain the prebuilt
image, create a container declaring `containerPath` as its only volume,
start it and wait for a clean exit; on a create/start/wait failure the
(non-empty) container ID is appended to `failures`. -/
def createCacheVolume (env : CreateCacheEnv) (st : ExecState)
    (containerName containerPath : String) :
    ExecState × List Act × Except RunnerError String :=
  match env.prebuiltImage with
  | .error e => (st, [], .error (.goErr e))
  | .ok _cacheImage =>
    match env.createResp with
    | (respId, some e) =>
      if respId ≠ "" then
        ({ st with failures := st.failures ++ [respId] },
         [.containerCreate containerName [containerPath]], .error (.goErr e))
      else
        (st, [.containerCreate containerName [containerPath]], .error (.goErr e))
    | (respId, none) =>
      match env.startErr with
      | some e =>
        ({ st with failures := st.failures ++ [respId] },
         [.containerCreate containerName [containerPath], .containerStart respId],
         .error (.goErr e))
      | none =>
        match env.waitErr with
        | some e =>
          ({ st with failures := st.failures ++ [respId] },
           [.containerCreate containerName [containerPath], .containerStart respId],
           .error e)
        | none =>
          (st, [.containerCreate containerName [containerPath], .containerStart respId],
           .ok respId)

/-- The data of an inspected existing container consumed by
`addCacheVolume`: its ID and the keys of its recorded `Config.Volumes`
map. -/
structure InspectedContainer where
  id : String
  configVolumes : List String
deriving DecidableEq, Repr

/-- Outcomes of the client calls made by `addCacheVolume`: the result of
`filepath.Abs` on the host cache path (host-cache branch only) and the
result of `ContainerInspect` on the deterministic cache-container name
(`none` models an inspect error, i.e. no such container). -/
structure AddCacheEnv where
  absResult : Except GoError String
  inspect : Option InspectedContainer
  createEnv : CreateCacheEnv

/-- Function `addCacheVolume(containerPath)`.  `hashHex` stands for the hex digest
`%x` of `md5(containerPath)` computed by the source via `crypto/md5`.
With caching disabled nothing happens; with a configured cache directory a
host bind is appended; otherwise the deterministic cache container is
inspected: the source treats the requested path being a key of the recorded
`Config.Volumes` map as `stale` and removes the container in that case,
reusing the inspected ID only when the path is absent, and creates a fresh
cache container whenever no ID was kept. -/
def addCacheVolume (cfg : DockerCfg) (projectUniqueName fullProjectDir hashHex : String)
    (env : AddCacheEnv) (st : ExecState) (containerPath : String) :
    ExecState × List Act × Option RunnerError :=
  let containerPath := getAbsoluteContainerPath fullProjectDir containerPath
  if cfg.disableCache then (st, [], none)
  else if cfg.cacheDir ≠ "" then
    match env.absResult with
    | .error e => (st, [], some (.goErr e))
    | .ok hostPath =>
      ({ st with binds := st.binds ++ [hostPath ++ ":" ++ containerPath] }, [], none)
  else
    let containerName := projectUniqueName ++ "-cache-" ++ hashHex
    let inspected :=
      match env.inspect with
      | some inspected =>
        if inspected.configVolumes.contains containerPath then
          ("", [Act.removeContainer inspected.id])
        else (inspected.id, ([] : List Act))
      | none => ("", [])
    let containerID := inspected.1
    let acts := inspected.2
    if containerID = "" then
      match createCacheVolume env.createEnv st containerName containerPath with
      | (st', acts', .error e) => (st', acts ++ acts', some e)
      | (st', acts', .ok id) =>
        ({ st' with volumesFrom := st'.volumesFrom ++ [id] }, acts ++ acts', none)
    else
      ({ st with volumesFrom := st.volumesFrom ++ [containerID] }, acts, none)

/-- Function `addHostVolume(hostPath, containerPath)`: append a bind after
normalising the container side to an absolute path. -/
def addHostVolume (fullProjectDir : String) (st : ExecState)
    (hostPath containerPath : String) :
    ExecState × List Act × Option RunnerError :=
  let containerPath := getAbsoluteContainerPath fullProjectDir containerPath
  ({ st with binds := st.binds ++ [hostPath ++ ":" ++ containerPath] }, [], none)

/-- Function `addVolume(volume)`: split on the first `':'`; two parts give a host
bind, a single part invokes the cache logic. -/
def addVolume (cfg : DockerCfg) (projectUniqueName fullProjectDir hashHex : String)
    (env : AddCacheEnv) (st : ExecState) (volume : String) :
    ExecState × List Act × Option RunnerError :=
  match splitN2Colon volume with
  | [hostPath, containerPath] => addHostVolume fullProjectDir st hostPath containerPath
  | [containerPath] => addCacheVolume cfg projectUniqueName fullProjectDir hashHex env st containerPath
  | _ => (st, [], none)

/-- The inner loop of `isHostMountedVolume`: walk `dir` upwards through
`path.Dir` until reaching `"/"` or `"."`, checking for equality with
`parent`.  The fuel argument bounds the walk; Go's loop terminates because
`path.Dir` strictly shortens a cleaned path until it reaches `"/"` or
`"."`. -/
def isParentOfAux (parent : String) : Nat → String → Bool
  | 0, _ => false
  | fuel + 1, dir =>
    if dir ≠ "/" ∧ dir ≠ "." then
      if dir = parent then true
      else isParentOfAux parent fuel (pathDir dir)
    else false

/-- Function `isParentOf(parent, dir)` of the source. -/
def isParentOf (parent dir : String) : Bool :=
  isParentOfAux parent (dir.data.length + 1) dir

/-- Function `isHostMountedVolume(dir, volumes...)`: true iff some user volume with a
container side is an ancestor of `dir` (both sides cleaned). -/
def isHostMountedVolume (dir : String) (volumes : List String) : Bool :=
  volumes.any (fun volume =>
    match splitOnChar ':' volume.data with
    | _ :: containerPart :: _ =>
      isParentOf (pathClean (String.mk containerPart)) (pathClean dir)
    | _ => false)

/-- The git strategies of `common.GitStrategy`. -/
inductive GitStrategy where
  | fetch
  | clone
deriving DecidableEq, Repr

/-- Environments for the two container-creating paths of
`createBuildVolume`: the cache logic invoked through `addVolume`, and the
ephemeral `createCacheVolume("", parentDir)`. -/
structure BuildVolumeEnv where
  addCache : AddCacheEnv
  createEnv : CreateCacheEnv

/-- Function `createBuildVolume()`: take `parentDir = path.Dir(fullProjectDir)`,
reject it when it is not absolute and differs from `"/"`, skip when the
root directory is host-mounted, use the persistent cache path for the
`fetch` strategy with caching enabled, and otherwise create an ephemeral
(unnamed) cache container registered in `caches` and `volumesFrom`. -/
def createBuildVolume (cfg : DockerCfg)
    (projectUniqueName fullProjectDir rootDir hashHex : String)
    (gitStrategy : GitStrategy) (env : BuildVolumeEnv) (st : ExecState) :
    ExecState × List Act × Option RunnerError :=
  let parentDir := pathDir fullProjectDir
  if ¬ goIsAbs parentDir ∧ parentDir ≠ "/" then
    (st, [], some (.errMsg "build directory needs to be absolute and non-root path"))
  else if isHostMountedVolume rootDir cfg.volumes then (st, [], none)
  else if gitStrategy = .fetch ∧ ¬ cfg.disableCache then
    addVolume cfg projectUniqueName fullProjectDir hashHex env.addCache st parentDir
  else
    match createCacheVolume env.createEnv st "" parentDir with
    | (st', acts, .error e) => (st', acts, some e)
    | (st', acts, .ok id) =>
      ({ st' with caches := st'.caches ++ [id], volumesFrom := st'.volumesFrom ++ [id] },
       acts, none)

/-- Claim C1 (code bug): the staleness test of `addCacheVolume` is
inverted.  With an empty cache directory and caching enabled, an existing
container `proj-cache-abc123` whose recorded `Config.Volumes` *contains*
the requested path `/cache` is removed and a fresh cache container is
created in its place (first conjunct), while a container whose `Volumes`
does *not* contain the path is reused without removal, its ID appended to
`volumesFrom` (second conjunct) — the exact opposite of the claimed (and
commented) behaviour. -/
theorem claim_C1_cache_staleness_inverted :
    (addCacheVolume {} "proj" "/builds/proj" "abc123"
        ⟨.error ⟨"", false⟩, some ⟨"old1", ["/cache"]⟩,
         ⟨.ok ⟨"img"⟩, ("new1", none), none, none⟩⟩ {} "/cache" =
      ({ volumesFrom := ["new1"] },
       [.removeContainer "old1", .containerCreate "proj-cache-abc123" ["/cache"],
        .containerStart "new1"], none)) ∧
    (addCacheVolume {} "proj" "/builds/proj" "abc123"
        ⟨.error ⟨"", false⟩, some ⟨"old2", ["/other"]⟩,
         ⟨.ok ⟨"img"⟩, ("new1", none), none, none⟩⟩ {} "/cache" =
      ({ volumesFrom := ["old2"] }, [], none)) :=
  ⟨rfl, rfl⟩

/-- Claim C2 (code bug): the guard of `createBuildVolume` is
`!IsAbs(parentDir) && parentDir != "/"`, so a parent directory of `"/"`
(absolute) is *accepted*: with `fullProjectDir = "/builds"` the function
proceeds to create an ephemeral cache container whose declared volume is
`"/"` and returns no error (first conjunct; the second conjunct records
`path.Dir("/builds") = "/"`).  A relative project directory is rejected
with the documented error (third conjunct). -/
theorem claim_C2_root_parent_accepted :
    (createBuildVolume {} "proj" "/builds" "" "h1" .clone
        ⟨⟨.error ⟨"", false⟩, none, ⟨.ok ⟨"img"⟩, ("x", none), none, none⟩⟩,
         ⟨.ok ⟨"img"⟩, ("tmpc", none), none, none⟩⟩ {} =
      ({ caches := ["tmpc"], volumesFrom := ["tmpc"] },
       [.containerCreate "" ["/"], .containerStart "tmpc"], none)) ∧
    pathDir "/builds" = "/" ∧
    (createBuildVolume {} "proj" "relative/dir" "" "h1" .clone
        ⟨⟨.error ⟨"", false⟩, none, ⟨.ok ⟨"img"⟩, ("x", none), none, none⟩⟩,
         ⟨.ok ⟨"img"⟩, ("tmpc", none), none, none⟩⟩ {} =
      ({}, [], some (.errMsg "build directory needs to be absolute and non-root path"))) :=
  ⟨rfl, rfl, rfl⟩

/-- Claim C3 (counterexample): a run of *four* consecutive transient
inspect errors followed by a clean exit returns success — the fourth
consecutive error is still tolerated, refuting "tolerates up to 3
consecutive transient inspect errors before surfacing an error". -/
theorem claim_C3_counterexample :
    waitForContainer
      [.fail ⟨"connection reset", false⟩, .fail ⟨"connection reset", false⟩,
       .fail ⟨"connection reset", false⟩, .fail ⟨"connection reset", false⟩,
       .state false 0] = some none :=
  rfl

/-- Claim C3 (amended): `waitForContainer` tolerates up to *four*
consecutive transient inspect errors, surfacing the error on the fifth
(conjuncts 1 and 2); a Not Found inspect error is fatal immediately, at any
retry count (conjunct 3); a poll showing the container still running resets
the retry counter and continues (conjunct 4); once the container is no
longer running it returns success iff the exit code is 0, a non-zero code
yielding a `BuildError` (conjunct 5). -/
theorem claim_C3_wait_tolerates_four (e : GoError) (rest : List InspectPoll)
    (c : Int) (r : Nat) (h : e.isNotFound = false) :
    waitForContainer ([.fail e, .fail e, .fail e, .fail e, .fail e] ++ rest) =
      some (some (.goErr e)) ∧
    waitForContainer ([.fail e, .fail e, .fail e, .fail e, .state false 0] ++ rest) =
      some none ∧
    waitForContainerAux r (.fail ⟨e.msg, true⟩ :: rest) =
      some (some (.goErr ⟨e.msg, true⟩)) ∧
    waitForContainerAux r (.state true c :: rest) = waitForContainerAux 0 rest ∧
    waitForContainerAux r (.state false c :: rest) =
      some (if c ≠ 0 then some (.buildErrExit c) else none) := by
  refine ⟨?_, ?_, ?_, ?_, ?_⟩
  · simp [waitForContainer, waitForContainerAux, h]
  · simp [waitForContainer, waitForContainerAux, h]
  · simp [waitForContainerAux]
  · simp [waitForContainerAux]
  · by_cases hc : c = 0 <;> simp [waitForContainerAux, hc]

/-- Witness for the amended C3 at a concrete transient error, empty tail,
exit code 2 and retry counter 7. -/
theorem claim_C3_wait_tolerates_four_witness :
    waitForContainer
        ([.fail ⟨"x", false⟩, .fail ⟨"x", false⟩, .fail ⟨"x", false⟩,
          .fail ⟨"x", false⟩, .fail ⟨"x", false⟩] ++ []) =
      some (some (.goErr ⟨"x", false⟩)) ∧
    waitForContainer
        ([.fail ⟨"x", false⟩, .fail ⟨"x", false⟩, .fail ⟨"x", false⟩,
          .fail ⟨"x", false⟩, .state false 0] ++ []) =
      some none ∧
    waitForContainerAux 7 (.fail ⟨"x", true⟩ :: []) =
      some (some (.goErr ⟨"x", true⟩)) ∧
    waitForContainerAux 7 (.state true 2 :: []) = waitForContainerAux 0 [] ∧
    waitForContainerAux 7 (.state false 2 :: []) =
      some (if (2 : Int) ≠ 0 then some (.buildErrExit 2) else none) :=
  claim_C3_wait_tolerates_four ⟨"x", false⟩ [] 2 7 rfl

/-! ## Service manager: reference parsing and service containers -/

/-- One split-position test for the local regexp `ReferenceRegexpNoPort`
`^(.*?)(|:[0-9]+)(|/.*)$`: given the remainder after group 1, return
groups 2 and 3 when the remainder matches `(|:[0-9]+)(|/.*)$`, preferring
the empty alternatives first as Go's leftmost-first submatch semantics
does. -/
def noPortTail : List Char → Option (List Char × List Char)
  | [] => some ([], [])
  | rest@('/' :: _) => some ([], rest)
  | ':' :: cs =>
    let ds := cs.takeWhile Char.isDigit
    let rem := cs.drop ds.length
    if ds ≠ [] ∧ (rem = [] ∨ rem.head? = some '/') then some (':' :: ds, rem)
    else none
  | _ => none

/-- The match of `ReferenceRegexpNoPort` on a string: group 1 grows from
the shortest prefix until the tail matches; the full string always matches
(with empty groups 2 and 3). -/
def noPortSplitAux (acc : List Char) (rest : List Char) :
    List Char × List Char × List Char :=
  match noPortTail rest with
  | some (g2, g3) => (acc.reverse, g2, g3)
  | none =>
    match rest with
    | [] => (acc.reverse, [], [])
    | c :: cs => noPortSplitAux (c :: acc) cs
termination_by rest.length

/-- The `name` (submatch 1) and `tag` (submatch 2) of a successful
`reference.ReferenceRegexp` match. -/
structure RefMatch where
  name : String
  tag : String
deriving DecidableEq, Repr

/-- Function `splitServiceAndVersion(serviceDescription)`.  The anchored reference
grammar `reference.ReferenceRegexp` of the vendored docker/distribution
library is supplied as the oracle `refMatch`, returning the `name` and
`tag` submatches on success and `none` when the string does not match the
grammar.  On a non-match the function returns early with the zero service,
the default version `"latest"`, the description itself as image name and no
link names.  On a match the service is the name with any `:port` stripped,
the version is the explicit tag or `"latest"` (rewriting the image name to
`name:latest` when no tag was given), and the link names are the `"/"` →
`"__"` sanitisation plus the RFC 1123 variant (`"/"` → `"-"`) when it
differs. -/
def splitServiceAndVersion (refMatch : String → Option RefMatch)
    (serviceDescription : String) : String × String × String × List String :=
  match refMatch serviceDescription with
  | none => ("", "latest", serviceDescription, [])
  | some m =>
    let g := noPortSplitAux [] m.name.data
    let service := String.mk (g.1 ++ g.2.2)
    let verImg :=
      if m.tag.length > 0 then (m.tag, serviceDescription)
      else ("latest", m.name ++ ":" ++ "latest")
    let linkName := replaceSlashes service "__"
    let alternativeName := replaceSlashes service "-"
    let linkNames := if linkName ≠ alternativeName then [linkName, alternativeName]
      else [linkName]
    (service, verImg.1, verImg.2, linkNames)

/-- Outcomes of the client calls made by `createService` beyond image
acquisition: the `(resp.ID, err)` of `ContainerCreate` and the error of
`ContainerStart`. -/
structure ServiceEnv where
  imageEnv : ImageEnv
  createResp : String × Option GoError
  startErr : Option GoError

/-- Function `createService(service, version, image)`: reject an empty service name,
acquire the image, remove any container with the deterministic service
container name, create and start the service container.  A start failure
registers the ID in `failures`; a create failure returns without
registering the ID anywhere (unlike `createCacheVolume` and
`createContainer`). -/
def createService (projectUniqueName : String) (env : ServiceEnv) (st : ExecState)
    (service version image : String) :
    ExecState × List Act × Except RunnerError String :=
  if service.length = 0 then (st, [], .error (.errMsg "invalid service name"))
  else
    match getDockerImage env.imageEnv image with
    | ((_, some e), acts) => (st, acts, .error e)
    | ((_serviceImage, none), acts) =>
      let containerName := projectUniqueName ++ "-" ++ replaceSlashes service "__"
      let acts := acts ++ [Act.removeContainer containerName,
        Act.containerCreate containerName []]
      match env.createResp with
      | (_respId, some e) => (st, acts, .error (.goErr e))
      | (respId, none) =>
        match env.startErr with
        | some e =>
          ({ st with failures := st.failures ++ [respId] },
           acts ++ [Act.containerStart respId], .error (.goErr e))
        | none => (st, acts ++ [Act.containerStart respId], .ok respId)

/-- Outcomes of the client calls made by `createContainer` beyond image
acquisition: the `(resp.ID, err)` of `ContainerCreate` and the error of the
subsequent `ContainerInspect`. -/
structure ContainerEnv where
  imageEnv : ImageEnv
  createResp : String × Option GoError
  inspectErr : Option GoError

/-- Function `createContainer(containerType, imageName, cmd)`: acquire the image,
remove any container with the name `<projectUniqueName>-<type>`, create it
and inspect it.  A create failure with a non-empty returned ID registers
the ID in `failures`, as does an inspect failure. -/
def createContainer (projectUniqueName : String) (env : ContainerEnv) (st : ExecState)
    (containerType imageName : String) :
    ExecState × List Act × Except RunnerError String :=
  match getDockerImage env.imageEnv imageName with
  | ((_, some e), acts) => (st, acts, .error e)
  | ((_image, none), acts) =>
    let containerName := projectUniqueName ++ "-" ++ containerType
    let acts := acts ++ [Act.removeContainer containerName,
      Act.containerCreate containerName []]
    match env.createResp with
    | (respId, some e) =>
      if respId ≠ "" then
        ({ st with failures := st.failures ++ [respId] }, acts, .error (.goErr e))
      else (st, acts, .error (.goErr e))
    | (respId, none) =>
      match env.inspectErr with
      | some e => ({ st with failures := st.failures ++ [respId] }, acts, .error (.goErr e))
      | none => (st, acts, .ok respId)

/-- The alias loop of `createFromServiceDescription`: an already-mapped
alias is skipped with a warning; the service container is created at the
first unmapped alias and registered in `services`; every further unmapped
alias maps to the same container. -/
def createFromServiceDescriptionLoop (projectUniqueName : String) (env : ServiceEnv)
    (service version imageName : String) (st : ExecState) (created : Option String)
    (linksMap : List (String × String)) :
    List String → ExecState × List Act × List (String × String) × Option RunnerError
  | [] => (st, [], linksMap, none)
  | linkName :: rest =>
    if (linksMap.lookup linkName).isSome then
      createFromServiceDescriptionLoop projectUniqueName env service version imageName
        st created linksMap rest
    else
      match created with
      | some cid =>
        createFromServiceDescriptionLoop projectUniqueName env service version imageName
          st (some cid) (linksMap ++ [(linkName, cid)]) rest
      | none =>
        match createService projectUniqueName env st service version imageName with
        | (st', acts, .error e) => (st', acts, linksMap, some e)
        | (st', acts, .ok cid) =>
          let stRegistered := { st' with services := st'.services ++ [cid] }
          match createFromServiceDescriptionLoop projectUniqueName env service version
              imageName stRegistered (some cid) (linksMap ++ [(linkName, cid)]) rest with
          | (stf, actsf, mapf, errf) => (stf, acts ++ actsf, mapf, errf)

/-- Function `createFromServiceDescription(description, linksMap)`: parse, then run
the alias loop. -/
def createFromServiceDescription (refMatch : String → Option RefMatch)
    (projectUniqueName : String) (env : ServiceEnv) (st : ExecState)
    (linksMap : List (String × String)) (description : String) :
    ExecState × List Act × List (String × String) × Option RunnerError :=
  let p := splitServiceAndVersion refMatch description
  createFromServiceDescriptionLoop projectUniqueName env p.1 p.2.1 p.2.2.1 st none
    linksMap p.2.2.2

/-- Claim C6 (code bug): a `ContainerCreate` that returns an ID together
with an error registers the ID in `failures` in `createCacheVolume`
(conjunct 2) and in `createContainer` (conjunct 3), but `createService`
returns without registering the returned ID `"svc123"` anywhere — its
result state has empty `failures`, `builds`, `services` and `caches`
(conjunct 1), so Cleanup can never reach that container. -/
theorem claim_C6_create_service_partial_leak :
    (createService "proj"
        ⟨⟨.ok .always, (⟨"imgid"⟩, none), none, (⟨"", ⟩, none)⟩,
         ("svc123", some ⟨"conflict", false⟩), none⟩
        {} "db" "latest" "imgid" =
      ({}, [.removeContainer "proj-db", .containerCreate "proj-db" []],
       .error (.goErr ⟨"conflict", false⟩))) ∧
    (createCacheVolume ⟨.ok ⟨"imgid"⟩, ("cache123", some ⟨"conflict", false⟩), none, none⟩
        {} "proj-cache-h" "/c" =
      ({ failures := ["cache123"] }, [.containerCreate "proj-cache-h" ["/c"]],
       .error (.goErr ⟨"conflict", false⟩))) ∧
    (createContainer "proj"
        ⟨⟨.ok .always, (⟨"imgid"⟩, none), none, (⟨"", ⟩, none)⟩,
         ("bld123", some ⟨"conflict", false⟩), none⟩
        {} "build" "imgid" =
      ({ failures := ["bld123"] },
       [.removeContainer "proj-build", .containerCreate "proj-build" []],
       .error (.goErr ⟨"conflict", false⟩))) :=
  ⟨rfl, rfl, rfl⟩

/-- Claim C7 (counterexample): a service description rejected by the
reference grammar is *silently ignored*: `splitServiceAndVersion` returns
the zero service with no link names, and `createFromServiceDescription`
therefore performs no action and returns no error — it does not fail with
an invalid-reference error. -/
theorem claim_C7_counterexample :
    splitServiceAndVersion (fun _ => none) "!!!not a reference!!!" =
      ("", "latest", "!!!not a reference!!!", []) ∧
    createFromServiceDescription (fun _ => none) "proj"
        ⟨⟨.ok .always, (⟨"", ⟩, none), none, (⟨"", ⟩, none)⟩, ("", none), none⟩ {} []
        "!!!not a reference!!!" =
      ({}, [], [], none) :=
  ⟨rfl, rfl⟩

/-- Claim C7 (amended): for every service description the reference grammar
rejects, `splitServiceAndVersion` returns the empty service, version
`"latest"`, the description itself as image name and an empty link-name
list, and the service-creation pipeline *silently skips* the description:
no container is created, the links map is unchanged and no error is
returned.  Parsing itself is a pure function of the description. -/
theorem claim_C7_invalid_reference_skipped (refMatch : String → Option RefMatch)
    (s : String) (h : refMatch s = none) (projectUniqueName : String)
    (env : ServiceEnv) (st : ExecState) (linksMap : List (String × String)) :
    splitServiceAndVersion refMatch s = ("", "latest", s, []) ∧
    createFromServiceDescription refMatch projectUniqueName env st linksMap s =
      (st, [], linksMap, none) := by
  constructor
  · unfold splitServiceAndVersion
    rw [h]
  · unfold createFromServiceDescription splitServiceAndVersion
    rw [h]
    rfl

/-- Witness for the amended C7 at a concrete non-matching description. -/
theorem claim_C7_invalid_reference_skipped_witness :
    splitServiceAndVersion (fun _ => none) "%%bad%%" = ("", "latest", "%%bad%%", []) ∧
    createFromServiceDescription (fun _ => none) "p"
        ⟨⟨.ok .never, (⟨"", ⟩, none), none, (⟨"", ⟩, none)⟩, ("", none), none⟩
        { failures := ["f1"] } [("a", "b")] "%%bad%%" =
      ({ failures := ["f1"] }, [], [("a", "b")], none) :=
  claim_C7_invalid_reference_skipped (fun _ => none) "%%bad%%" rfl "p"
    ⟨⟨.ok .never, (⟨"", ⟩, none), none, (⟨"", ⟩, none)⟩, ("", none), none⟩
    { failures := ["f1"] } [("a", "b")]

/-! ## Image / service name resolution and allow-list verification -/

/-- Function `verifyAllowedImage(image, optionName, allowedImages, internalImages)`.
`globMatch pat s` models `filepath.Match(pat, s)`.  The image passes when
some allow-pattern matches, or it equals an internal image, or the
allow-list is empty (permissive default); otherwise `invalid image`. -/
def verifyAllowedImage (globMatch : String → String → Bool) (image : String)
    (_optionName : String) (allowedImages internalImages : List String) :
    Option RunnerError :=
  if allowedImages.any (fun allowedImage => globMatch allowedImage image) then none
  else if internalImages.any (fun internalImage => internalImage == image) then none
  else if allowedImages.length ≠ 0 then some (.errMsg "invalid image")
  else none

/-- Function `getImageName()`.  `expand` models
`Build.GetAllVariables().ExpandValue`; the second component of the result
records the strings handed to `verifyAllowedImage`.  With a per-job image,
the *expanded* value is computed and returned, but the verification is
invoked on the *unexpanded* `s.options.Image`. -/
def getImageName (globMatch : String → String → Bool) (expand : String → String)
    (cfg : DockerCfg) (optionsImage : String) :
    Except RunnerError String × List String :=
  if optionsImage ≠ "" then
    let image := expand optionsImage
    match verifyAllowedImage globMatch optionsImage "images" cfg.allowedImages [cfg.image] with
    | some e => (.error e, [optionsImage])
    | none => (.ok image, [optionsImage])
  else if cfg.image = "" then
    (.error (.errMsg "No Docker image specified to run the build in"), [])
  else (.ok cfg.image, [])

/-- The loop of `getServiceNames()`: each per-job service string is
expanded, then verified (the expanded value is what is verified), then
appended to the accumulated list. -/
def getServiceNamesLoop (globMatch : String → String → Bool) (expand : String → String)
    (cfg : DockerCfg) (services : List String) :
    List String → Except RunnerError (List String) × List String
  | [] => (.ok services, [])
  | s :: rest =>
    let expanded := expand s
    match verifyAllowedImage globMatch expanded "services" cfg.allowedServices cfg.services with
    | some e => (.error e, [expanded])
    | none =>
      match getServiceNamesLoop globMatch expand cfg (services ++ [expanded]) rest with
      | (res, verified) => (res, expanded :: verified)

/-- Function `getServiceNames()`: start from the host-configured services and fold
in the per-job services. -/
def getServiceNames (globMatch : String → String → Bool) (expand : String → String)
    (cfg : DockerCfg) (optionsServices : List String) :
    Except RunnerError (List String) × List String :=
  getServiceNamesLoop globMatch expand cfg cfg.services optionsServices

/-- Claim C8 (counterexample): with allow-list `["alpine"]`, internal image
`"ruby"`, per-job image `"$IMAGE"` expanding to `"alpine"` and a glob
matcher that matches equal strings, `getImageName` fails with
`invalid image` (conjunct 1) although the expanded value `"alpine"` passes
the allow-list (conjunct 3) — because the string verified is the
unexpanded `"$IMAGE"` (conjunct 2), not the expanded value as claimed. -/
theorem claim_C8_counterexample :
    (getImageName (fun pat s => pat == s)
        (fun s => if s = "$IMAGE" then "alpine" else s)
        { image := "ruby", allowedImages := ["alpine"] } "$IMAGE").1 =
      .error (.errMsg "invalid image") ∧
    (getImageName (fun pat s => pat == s)
        (fun s => if s = "$IMAGE" then "alpine" else s)
        { image := "ruby", allowedImages := ["alpine"] } "$IMAGE").2 = ["$IMAGE"] ∧
    verifyAllowedImage (fun pat s => pat == s) "alpine" "images" ["alpine"] ["ruby"] =
      none :=
  ⟨rfl, rfl, rfl⟩

/-- Claim C8 (amended): expansion is applied to image and service strings
before they are pulled or used for container creation, and *service*
strings are verified in expanded form, but the *image* allow-list
verification receives the unexpanded per-job string: (1) with a per-job
image the verified string is exactly the unexpanded `options.Image`;
(2) a successful `getImageName` returns the expanded value; (3) when every
expanded service passes verification, `getServiceNames` verifies exactly
the expanded strings and returns the configured services followed by the
expanded per-job services. -/
theorem claim_C8_image_verified_unexpanded (globMatch : String → String → Bool)
    (expand : String → String) (cfg : DockerCfg) (optionsImage : String)
    (optionsServices : List String) (h : optionsImage ≠ "")
    (hs : ∀ s ∈ optionsServices,
      verifyAllowedImage globMatch (expand s) "services" cfg.allowedServices cfg.services =
        none) :
    (getImageName globMatch expand cfg optionsImage).2 = [optionsImage] ∧
    (∀ v, (getImageName globMatch expand cfg optionsImage).1 = .ok v →
      v = expand optionsImage) ∧
    getServiceNames globMatch expand cfg optionsServices =
      (.ok (cfg.services ++ optionsServices.map expand), optionsServices.map expand) := by
  have hloop : ∀ (l : List String) (acc : List String),
      (∀ s ∈ l, verifyAllowedImage globMatch (expand s) "services" cfg.allowedServices
        cfg.services = none) →
      getServiceNamesLoop globMatch expand cfg acc l = (.ok (acc ++ l.map expand), l.map expand) := by
    intro l
    induction l with
    | nil => intro acc _; simp [getServiceNamesLoop]
    | cons s rest ih =>
      intro acc hall
      have hhead := hall s (List.mem_cons_self s rest)
      have htail := fun x hx => hall x (List.mem_cons_of_mem s hx)
      simp only [getServiceNamesLoop, hhead, ih (acc ++ [expand s]) htail, List.map_cons]
      simp
  refine ⟨?_, ?_, ?_⟩
  · unfold getImageName
    rw [if_pos h]
    cases hv : verifyAllowedImage globMatch optionsImage "images" cfg.allowedImages
      [cfg.image] <;> simp [hv]
  · intro v hv
    unfold getImageName at hv
    rw [if_pos h] at hv
    cases hw : verifyAllowedImage globMatch optionsImage "images" cfg.allowedImages
        [cfg.image] <;> rw [hw] at hv
    · exact (by simpa using hv : expand optionsImage = v).symm
    · simp at hv
  · unfold getServiceNames
    exact hloop optionsServices cfg.services hs

/-- Witness for the amended C8 at concrete values: image `"$I"` expanding
to `"busybox"`, one service `"$S"` expanding to `"redis"`, empty
allow-lists (permissive). -/
theorem claim_C8_image_verified_unexpanded_witness :
    (getImageName (fun pat s => pat == s)
        (fun s => if s = "$I" then "busybox" else if s = "$S" then "redis" else s)
        { image := "ruby" } "$I").2 = ["$I"] ∧
    (∀ v, (getImageName (fun pat s => pat == s)
        (fun s => if s = "$I" then "busybox" else if s = "$S" then "redis" else s)
        { image := "ruby" } "$I").1 = .ok v →
      v = (fun s => if s = "$I" then "busybox" else if s = "$S" then "redis" else s) "$I") ∧
    getServiceNames (fun pat s => pat == s)
        (fun s => if s = "$I" then "busybox" else if s = "$S" then "redis" else s)
        { image := "ruby" } ["$S"] =
      (.ok (({ image := "ruby" } : DockerCfg).services ++
        (["$S"].map (fun s => if s = "$I" then "busybox" else if s = "$S" then "redis" else s))),
       ["$S"].map (fun s => if s = "$I" then "busybox" else if s = "$S" then "redis" else s)) :=
  claim_C8_image_verified_unexpanded (fun pat s => pat == s)
    (fun s => if s = "$I" then "busybox" else if s = "$S" then "redis" else s)
    { image := "ruby" } "$I" ["$S"] (by decide) (by intro s hs_; fin_cases hs_; rfl)

/-! ## Lifecycle: Prepare and Cleanup; the PowerShell shell -/

/-- Structure `common.ShellConfiguration` as produced by a shell's
`GetConfiguration`. -/
structure ShellConfiguration where
  command : String
  arguments : List String
  passFile : Bool
  extension : String
deriving DecidableEq, Repr

/-- Function `PowerShell.GetConfiguration(info)` from `shells/powershell.go`: a
constant configuration with `PassFile: true`, paired with the always-`nil`
error. -/
def powerShellGetConfiguration : ShellConfiguration × Option RunnerError :=
  ({ command := "powershell"
     arguments := ["-noprofile", "-noninteractive", "-executionpolicy", "Bypass", "-command"]
     passFile := true
     extension := "ps1" }, none)

/-- The per-job `dockerOptions` decoded from the build's options. -/
structure DockerOptions where
  image : String := ""
  services : List String := []
deriving Repr

/-- Outcomes of the steps of `Prepare` that live outside this file's scope:
`AbstractExecutor.Prepare` (which selects the shell and sets `BuildShell`),
`build.Options.Decode`, `connectDocker`, and `createDependencies` (modelled
as a state transformer).  `prepareBuildsDir` only sets `SharedBuildsDir`
and always returns `nil`, so it needs no outcome. -/
structure PrepareEnv where
  abstractPrepare : Except RunnerError ShellConfiguration
  decodeOptions : Except RunnerError DockerOptions
  connectErr : Option RunnerError
  deps : ExecState → ExecState × List Act × Option RunnerError

/-- Function `Prepare(globalConfig, config, build)`: abstract prepare, then the
`BuildShell.PassFile` rejection, then the docker-section check, option
decoding, image-name resolution, client connection (recorded as
`Act.connectClient`) and dependency creation, each surfacing the first
failure. -/
def prepare (env : PrepareEnv) (globMatch : String → String → Bool)
    (expand : String → String) (dockerCfg : Option DockerCfg) (st : ExecState) :
    ExecState × List Act × Option RunnerError :=
  match env.abstractPrepare with
  | .error e => (st, [], some e)
  | .ok buildShell =>
    if buildShell.passFile then
      (st, [], some (.errMsg "Docker doesn't support shells that require script file"))
    else
      match dockerCfg with
      | none => (st, [], some (.errMsg "Missing docker configuration"))
      | some cfg =>
        match env.decodeOptions with
        | .error e => (st, [], some e)
        | .ok options =>
          match (getImageName globMatch expand cfg options.image).1 with
          | .error e => (st, [], some e)
          | .ok _imageName =>
            match env.connectErr with
            | some e => (st, [Act.connectClient], some e)
            | none =>
              match env.deps st with
              | (st', acts, err) => (st', Act.connectClient :: acts, err)

/-- Claim C9: `PowerShell.GetConfiguration` always sets `PassFile` to
`true` (conjunct 1), and whenever the selected shell's configuration has
`PassFile = true`, `Prepare` returns the script-file rejection error with
an empty action trace — in particular the client is never connected
(`Act.connectClient` absent) and no daemon-side resource is created or
registered (the state is unchanged) (conjunct 2). -/
theorem claim_C9_pass_file_rejected (env : PrepareEnv)
    (globMatch : String → String → Bool) (expand : String → String)
    (dockerCfg : Option DockerCfg) (st : ExecState) (shell : ShellConfiguration)
    (h1 : env.abstractPrepare = .ok shell) (h2 : shell.passFile = true) :
    powerShellGetConfiguration.1.passFile = true ∧
    prepare env globMatch expand dockerCfg st =
      (st, [], some (.errMsg "Docker doesn't support shells that require script file")) := by
  refine ⟨rfl, ?_⟩
  unfold prepare
  rw [h1]
  simp [h2]

/-- Witness for C9: preparing with the PowerShell shell configuration
itself is rejected before any client action. -/
theorem claim_C9_pass_file_rejected_witness :
    powerShellGetConfiguration.1.passFile = true ∧
    prepare
        ⟨.ok powerShellGetConfiguration.1, .ok {}, none, fun s => (s, [], none)⟩
        (fun pat s => pat == s) (fun s => s) (some {}) {} =
      ({}, [], some (.errMsg "Docker doesn't support shells that require script file")) :=
  claim_C9_pass_file_rejected
    ⟨.ok powerShellGetConfiguration.1, .ok {}, none, fun s => (s, [], none)⟩
    (fun pat s => pat == s) (fun s => s) (some {}) {} powerShellGetConfiguration.1 rfl rfl

/-- A cleanup-time client operation: a container removal or the final
`client.Close`. -/
inductive CleanupOp where
  | remove (id : String)
  | closeClient
deriving DecidableEq, Repr

/-- Function `Cleanup()`: remove each registered failure, service, cache and build
ID (the source spawns the removals concurrently and waits; the trace lists
them in registration order), then close the client iff one was
connected. -/
def cleanup (clientPresent : Bool) (st : ExecState) : List CleanupOp :=
  st.failures.map .remove ++ st.services.map .remove ++ st.caches.map .remove ++
    st.builds.map .remove ++ (if clientPresent then [.closeClient] else [])

/-- Claim C10: Cleanup attempts removal exactly of the IDs registered in
`failures`, `services`, `caches` and `builds` (conjunct 1: an ID is removed
iff it is registered), calls Close iff the client is non-nil (conjunct 2),
and with a nil client and empty registries performs no client operation at
all (conjunct 3). -/
theorem claim_C10_cleanup_safe (clientPresent : Bool) (st : ExecState) (id : String) :
    (CleanupOp.remove id ∈ cleanup clientPresent st ↔
      id ∈ st.failures ∨ id ∈ st.services ∨ id ∈ st.caches ∨ id ∈ st.builds) ∧
    (CleanupOp.closeClient ∈ cleanup clientPresent st ↔ clientPresent = true) ∧
    cleanup false {} = [] := by
  refine ⟨?_, ?_, rfl⟩
  · cases clientPresent <;> simp [cleanup]
  · cases clientPresent <;> simp [cleanup]

/-- Witness for C10: with one registered failure, the failure is removed and
the client closed; the nil-client empty-state cleanup is empty. -/
theorem claim_C10_cleanup_safe_witness :
    (CleanupOp.remove "f1" ∈ cleanup true { failures := ["f1"] } ↔
      "f1" ∈ ({ failures := ["f1"] } : ExecState).failures ∨
      "f1" ∈ ({ failures := ["f1"] } : ExecState).services ∨
      "f1" ∈ ({ failures := ["f1"] } : ExecState).caches ∨
      "f1" ∈ ({ failures := ["f1"] } : ExecState).builds) ∧
    (CleanupOp.closeClient ∈ cleanup true { failures := ["f1"] } ↔ true = true) ∧
    cleanup false {} = [] :=
  claim_C10_cleanup_safe true { failures := ["f1"] } "f1"

end GitlabRunner
